import Mathlib

/-!
# Ledger — order intake, matching and settlement-dispatch engine

Shallow embedding of the core of the Ledger trading venue:

* `src/lib/orders.ts` — the `Order` / `SignedOrder` data model and the
  unit-conversion helpers `usdToUsdc`, `usdcToUsd`, `defaultExpiry`;
* `src/app/api/orders/route.ts` — the custodial key derivation
  (`deriveUserKey`), the matching engine (`findMatch`), and the `POST`
  intake handler (validation, order construction, matching, removal,
  settlement dispatch and failure recovery).

Modelling conventions:

* JavaScript `BigInt` values become `Int`; JavaScript `number` values used
  as decimal currency amounts become `Rat` (exact rational arithmetic in
  place of IEEE doubles — the claims under study concern rounding modes
  and round-trips that are exact at the relevant inputs);
* `Math.round x` is `⌊x + 1/2⌋` (JavaScript rounds half toward +∞);
* `Math.floor` on a division becomes `Int.fdiv`;
* the wall clock `Date.now()` is an explicit `now : Int` parameter;
* the external EIP-712 signer, the address derivation and the keccak256
  primitive are library calls outside this repository, so they enter the
  embedding as explicit function parameters;
* the settlement authority (`settleMatch`, an external contract call that
  may throw) is an explicit `settleResult : Option String` parameter:
  `some tx` is a successful call returning transaction hash `tx`, `none`
  is a thrown error.
-/

namespace Ledger

/-- The `Order` struct of `src/lib/orders.ts` (mirrors the Solidity struct):
maker address, tokenId, fixed-point price in 6-decimal USDC units, side,
quantity, nonce and unix-seconds expiry. `BigInt` fields become `Int`,
the address becomes an opaque `String`. -/
structure Order where
  maker : String
  tokenId : Int
  priceUsdc : Int
  isBuy : Bool
  quantity : Int
  nonce : Int
  expiry : Int
deriving DecidableEq, Repr

/-- The `SignedOrder` entry stored in the order book
(`src/lib/orders.ts`): the order, its signature, the `createdAt`
timestamp, the submitting user's id, a display label and the original
human-readable USD price. -/
structure SignedOrder where
  order : Order
  signature : String
  createdAt : Int
  userId : String
  cardName : String
  priceUsd : Rat
deriving DecidableEq, Repr

/-- `Math.round` of JavaScript: round to the nearest integer, halves
toward +∞, i.e. `⌊x + 1/2⌋`. -/
def jsRound (x : Rat) : Int := ⌊x + 1/2⌋

/-- `usdToUsdc` of `src/lib/orders.ts`:
`BigInt(Math.round(usd * 1_000_000))`. -/
def usdToUsdc (usd : Rat) : Int := jsRound (usd * 1000000)

/-- `usdcToUsd` of `src/lib/orders.ts`: `Number(usdc) / 1_000_000`. -/
def usdcToUsd (usdc : Int) : Rat := (usdc : Rat) / 1000000

/-- `defaultExpiry` of `src/lib/orders.ts`:
`BigInt(Math.floor(Date.now() / 1000) + 86_400)`, with the clock passed
explicitly. -/
def defaultExpiry (now : Int) : Int := Int.fdiv now 1000 + 86400

/-- The matching predicate of `findMatch`
(`src/app/api/orders/route.ts`, lines 78–88): the resting candidate `c`
matches the incoming order `o` iff same `tokenId`, opposite `isBuy`,
equal `quantity`, and the crossing condition on `priceUsdc`. -/
def orderMatches (o c : Order) : Bool :=
  c.tokenId == o.tokenId &&
  c.isBuy != o.isBuy &&
  c.quantity == o.quantity &&
  (if o.isBuy then decide (c.priceUsdc ≤ o.priceUsdc)
   else decide (o.priceUsdc ≤ c.priceUsdc))

/-- `findMatch` of `src/app/api/orders/route.ts`: `orderBook.find(...)`,
the first resting order in store-iteration order whose order matches the
incoming one (`?? null` becomes the `Option` itself). The mutable global
`orderBook` array is passed explicitly as a list. -/
def findMatch (incoming : SignedOrder) (orderBook : List SignedOrder) :
    Option SignedOrder :=
  orderBook.find? (fun candidate => orderMatches incoming.order candidate.order)

/-- Removal of the matched entry: the handler does
`orderBook.indexOf(match)` followed by `splice(matchIdx, 1)`
(lines 171–172).  `match` is the element `Array.prototype.find` returned,
i.e. the first element satisfying the predicate; `indexOf` locates that
very element (by reference; every pushed entry is a fresh object), so the
pair of calls deletes exactly the first entry satisfying the predicate. -/
def removeFirst (p : SignedOrder → Bool) : List SignedOrder → List SignedOrder
  | [] => []
  | x :: xs => if p x then xs else x :: removeFirst p xs

/-- The JSON body of a `POST /api/orders` request
(`src/app/api/orders/route.ts`, lines 116–123).  Each field is `Option`al
because the handler checks for missing fields itself; `tokenId` and
`quantity` are numbers, `priceUsd` a decimal USD amount. -/
structure Req where
  userId : Option String
  tokenId : Option Int
  priceUsd : Option Rat
  isBuy : Option Bool
  quantity : Option Int
  cardName : Option String
deriving DecidableEq, Repr

/-- The JSON responses the handler can produce: the settled response
(`status: "settled"`, txHash, makerAddress, message), the queued response
(`status: "queued"`, makerAddress, message) and the error response with
its HTTP status code. -/
inductive Response where
  | settled (txHash makerAddress message : String)
  | queued (makerAddress message : String)
  | error (msg : String) (status : Nat)
deriving DecidableEq, Repr

/-- Trace of the `settleMatch` call issued by the handler: the state the
order book was in at the moment the call was issued, and the
`(buyEntry, sellEntry)` pair passed to `settle`. -/
structure SettleCall where
  bookAtCall : List SignedOrder
  buyEntry : SignedOrder
  sellEntry : SignedOrder
deriving DecidableEq, Repr

/-- Result of one `POST` intake: the response returned to the caller, the
order book after the request, and the settlement call issued (if any). -/
structure IntakeOutcome where
  response : Response
  book : List SignedOrder
  settleCall : Option SettleCall
deriving DecidableEq, Repr

/-- The validation check of the handler (line 125):
`!userId || tokenId === undefined || !priceUsd || isBuy === undefined ||
!quantity`.  JavaScript truthiness: a missing field is falsy, the empty
string is falsy, the number `0` is falsy; every other string, boolean and
number (negative numbers included) is truthy, and `isBuy`/`tokenId` are
only compared against `undefined`. -/
def invalidReq (r : Req) : Bool :=
  (match r.userId with | none => true | some s => s == "") ||
  r.tokenId.isNone ||
  (match r.priceUsd with | none => true | some p => p == 0) ||
  r.isBuy.isNone ||
  (match r.quantity with | none => true | some q => q == 0)

/-- The `Order` struct built by the handler (lines 133–141): maker is the
derived custodial address, `priceUsdc := usdToUsdc priceUsd`,
`nonce := BigInt(Date.now())` and `expiry := defaultExpiry()`. -/
def builtOrder (addr : String) (tokenId : Int) (priceUsd : Rat)
    (isBuy : Bool) (quantity : Int) (now : Int) : Order :=
  { maker := addr, tokenId := tokenId, priceUsdc := usdToUsdc priceUsd,
    isBuy := isBuy, quantity := quantity, nonce := now,
    expiry := defaultExpiry now }

/-- The `SignedOrder` record built by the handler (lines 157–164):
`createdAt := Date.now()`, `cardName` defaults to `Token #<tokenId>`. -/
def builtSigned (deriveAddr : String → String) (sign : Order → String)
    (now : Int) (userId : String) (tokenId : Int) (priceUsd : Rat)
    (isBuy : Bool) (quantity : Int) (cardName : Option String) : SignedOrder :=
  let order := builtOrder (deriveAddr userId) tokenId priceUsd isBuy quantity now
  { order := order, signature := sign order, createdAt := now,
    userId := userId,
    cardName := cardName.getD ("Token #" ++ toString tokenId),
    priceUsd := priceUsd }

/-- The `POST /api/orders` handler (`src/app/api/orders/route.ts`,
lines 113–210), one request against a given book state.

* `deriveAddr` stands for `getUserAccount(userId).address` (viem library
  call on the key derived by `deriveUserKey`), `sign` for the EIP-712
  `signTypedData` call, `now` for `Date.now()`, and `settleResult` for
  the outcome of the external `settleMatch` contract call (`some tx` =
  returned hash, `none` = thrown error).
* the guard clause rejecting the request mirrors `invalidReq` above:
  rejection happens exactly when a field is missing (`none`) or falsy
  (`""` for `userId`, `0` for `priceUsd`/`quantity`).
* on match, the matched entry is removed from the book *before* the
  settlement call; the book state at that moment is recorded in
  `settleCall`.  On settlement failure the handler pushes back `match`
  and then the incoming order (lines 187–188). -/
def intake (deriveAddr : String → String) (sign : Order → String)
    (now : Int) (settleResult : Option String) (r : Req)
    (orderBook : List SignedOrder) : IntakeOutcome :=
  match r.userId, r.tokenId, r.priceUsd, r.isBuy, r.quantity with
  | some userId, some tokenId, some priceUsd, some isBuy, some quantity =>
    if userId = "" ∨ priceUsd = 0 ∨ quantity = 0 then
      ⟨.error "Missing required fields" 400, orderBook, none⟩
    else
      let addr := deriveAddr userId
      let signedOrder :=
        builtSigned deriveAddr sign now userId tokenId priceUsd isBuy quantity r.cardName
      match findMatch signedOrder orderBook with
      | some m =>
        let book1 := removeFirst (fun c => orderMatches signedOrder.order c.order) orderBook
        let buyEntry := if isBuy then signedOrder else m
        let sellEntry := if isBuy then m else signedOrder
        match settleResult with
        | some tx =>
          ⟨.settled tx addr "Order matched and settled on-chain",
           book1, some ⟨book1, buyEntry, sellEntry⟩⟩
        | none =>
          ⟨.queued addr "Match found but on-chain settlement pending",
           book1 ++ [m, signedOrder], some ⟨book1, buyEntry, sellEntry⟩⟩
      | none =>
        ⟨.queued addr "Order submitted to order book",
         orderBook ++ [signedOrder], none⟩
  | _, _, _, _, _ => ⟨.error "Missing required fields" 400, orderBook, none⟩

/-- The testnet-fallback master key of the route
(`0xdeadbeef…` repeated to 32 bytes), as its byte sequence. -/
def masterKeyBytes : List Nat := (List.replicate 8 [0xde, 0xad, 0xbe, 0xef]).flatten

/-- `encodePacked(["bytes32","string"], [MASTER_KEY, userId])` of viem:
the 32 master-key bytes followed by the UTF-8 bytes of the user id. -/
def encodePacked (key : List Nat) (userId : String) : List Nat :=
  key ++ (userId.toUTF8.toList.map fun b => b.toNat)

/-- `deriveUserKey` of `src/app/api/orders/route.ts` (lines 48–50):
`keccak256(encodePacked(["bytes32","string"], [MASTER_KEY, userId]))`.
`keccak256` is a library primitive external to this repository and enters
the embedding as an explicit function parameter. -/
def deriveUserKey (keccak256 : List Nat → List Nat) (userId : String) :
    List Nat :=
  keccak256 (encodePacked masterKeyBytes userId)

/-! ### Matching-engine lemmas -/

/-- The boolean matching predicate, unfolded to its four conditions. -/
theorem orderMatches_iff (o c : Order) :
    orderMatches o c = true ↔
      (c.tokenId = o.tokenId ∧ c.isBuy ≠ o.isBuy ∧ c.quantity = o.quantity ∧
       (if o.isBuy then c.priceUsdc ≤ o.priceUsdc
        else o.priceUsdc ≤ c.priceUsdc)) := by
  cases hb : o.isBuy <;>
    simp [orderMatches, hb, and_assoc]

/-- A resting ask for `tokenId = 7`, quantity 1 at `$100`
(`priceUsdc = 100000000`). -/
def restingAsk : SignedOrder :=
  ⟨⟨"0xSeller", 7, 100000000, false, 1, 0, 0⟩, "sig0", 0, "seller", "Card #7", 100⟩

/-- An incoming buy for the same token and quantity at exactly the resting
ask price. -/
def buyAtAsk : SignedOrder :=
  ⟨⟨"0xBuyer", 7, 100000000, true, 1, 1, 1⟩, "sig1", 1, "buyer", "Card #7", 100⟩

/-- An incoming buy one fixed-point unit below the resting ask price. -/
def buyBelowAsk : SignedOrder :=
  ⟨⟨"0xBuyer", 7, 99999999, true, 1, 1, 1⟩, "sig1", 1, "buyer", "Card #7", 100⟩

/-- C1: `findMatch` returns the first resting order in store-iteration
order whose order has the same `tokenId`, the opposite side, exactly
equal quantity and satisfies the crossing condition; it returns `none`
iff no resting order satisfies all four conditions; a buy at exactly the
resting ask matches and a buy one fixed-point unit below does not. -/
theorem findMatch_first_fit :
    (∀ (inc : SignedOrder) (book : List SignedOrder) (c : SignedOrder),
      findMatch inc book = some c ↔
        ((c.order.tokenId = inc.order.tokenId ∧
          c.order.isBuy ≠ inc.order.isBuy ∧
          c.order.quantity = inc.order.quantity ∧
          (if inc.order.isBuy then c.order.priceUsdc ≤ inc.order.priceUsdc
           else inc.order.priceUsdc ≤ c.order.priceUsdc)) ∧
         ∃ pre post, book = pre ++ c :: post ∧
           ∀ c' ∈ pre,
             ¬(c'.order.tokenId = inc.order.tokenId ∧
               c'.order.isBuy ≠ inc.order.isBuy ∧
               c'.order.quantity = inc.order.quantity ∧
               (if inc.order.isBuy then c'.order.priceUsdc ≤ inc.order.priceUsdc
                else inc.order.priceUsdc ≤ c'.order.priceUsdc)))) ∧
    (∀ (inc : SignedOrder) (book : List SignedOrder),
      findMatch inc book = none ↔
        ∀ c ∈ book,
          ¬(c.order.tokenId = inc.order.tokenId ∧
            c.order.isBuy ≠ inc.order.isBuy ∧
            c.order.quantity = inc.order.quantity ∧
            (if inc.order.isBuy then c.order.priceUsdc ≤ inc.order.priceUsdc
             else inc.order.priceUsdc ≤ c.order.priceUsdc))) ∧
    findMatch buyAtAsk [restingAsk] = some restingAsk ∧
    findMatch buyBelowAsk [restingAsk] = none := by
  refine ⟨?_, ?_, by decide, by decide⟩
  · intro inc book c
    rw [findMatch, List.find?_eq_some]
    constructor
    · rintro ⟨hc, pre, post, rfl, hpre⟩
      refine ⟨(orderMatches_iff inc.order c.order).mp hc, pre, post, rfl, ?_⟩
      intro c' hc' hcond
      have := hpre c' hc'
      rw [Bool.not_eq_eq_eq_not, Bool.not_true] at this
      exact absurd ((orderMatches_iff inc.order c'.order).mpr hcond)
        (by simp [this])
    · rintro ⟨hc, pre, post, rfl, hpre⟩
      refine ⟨(orderMatches_iff inc.order c.order).mpr hc, pre, post, rfl, ?_⟩
      intro c' hc'
      have : ¬ orderMatches inc.order c'.order = true := fun h =>
        hpre c' hc' ((orderMatches_iff inc.order c'.order).mp h)
      simp [this]
  · intro inc book
    rw [findMatch, List.find?_eq_none]
    constructor
    · intro h c hc hcond
      exact h c hc ((orderMatches_iff inc.order c.order).mpr hcond)
    · intro h c hc hm
      exact h c hc ((orderMatches_iff inc.order c.order).mp hm)

/-! ### Removal lemmas -/

/-- If `find?` locates `m`, then the original book is a permutation of
`m` put back on top of the book with the first satisfying entry
removed. -/
theorem removeFirst_perm (p : SignedOrder → Bool) (book : List SignedOrder)
    (m : SignedOrder) (h : book.find? p = some m) :
    book.Perm (m :: removeFirst p book) := by
  induction book with
  | nil => simp at h
  | cons x xs ih =>
    by_cases hx : p x = true
    · rw [List.find?_cons_of_pos _ hx] at h
      cases h
      rw [removeFirst, if_pos hx]
    · rw [List.find?_cons_of_neg _ hx] at h
      rw [removeFirst, if_neg hx]
      exact ((ih h).cons x).trans (List.Perm.swap m x _)

/-- `removeFirst` only deletes; the result is a sublist of the input. -/
theorem removeFirst_sublist (p : SignedOrder → Bool) (book : List SignedOrder) :
    (removeFirst p book).Sublist book := by
  induction book with
  | nil => exact List.Sublist.refl _
  | cons x xs ih =>
    rw [removeFirst]
    by_cases hx : p x = true
    · rw [if_pos hx]; exact List.sublist_cons_self x xs
    · rw [if_neg hx]; exact ih.cons₂ x

/-- C2: if a match is found but the settlement call fails, the response is
`queued` with the pending-settlement message, and the book afterwards is —
as a multiset — exactly the book before the match was attempted plus the
incoming order: no order lost, none duplicated. -/
theorem intake_settleFail_requeues
    (d : String → String) (g : Order → String) (t : Int) (u : String)
    (k : Int) (p : Rat) (b : Bool) (q : Int) (n : Option String)
    (B : List SignedOrder) (m : SignedOrder)
    (hu : u ≠ "") (hp : p ≠ 0) (hq : q ≠ 0)
    (hm : findMatch (builtSigned d g t u k p b q n) B = some m) :
    (intake d g t none ⟨some u, some k, some p, some b, some q, n⟩ B).response =
      Response.queued (d u) "Match found but on-chain settlement pending" ∧
    (intake d g t none ⟨some u, some k, some p, some b, some q, n⟩ B).book.Perm
      (builtSigned d g t u k p b q n :: B) := by
  have hval : ¬(u = "" ∨ p = 0 ∨ q = 0) := by
    push_neg
    exact ⟨hu, hp, hq⟩
  have hperm := removeFirst_perm
    (fun c => orderMatches (builtSigned d g t u k p b q n).order c.order) B m hm
  simp only [intake, if_neg hval, hm]
  refine ⟨trivial, ?_⟩
  set s := builtSigned d g t u k p b q n with hs
  set rf := removeFirst (fun c => orderMatches s.order c.order) B with hrf
  have h2 : (s :: B).Perm (m :: s :: rf) :=
    (hperm.cons s).trans (List.Perm.swap m s rf)
  exact (List.perm_append_comm).trans h2.symm

/-- C3: if a match is found, the matched resting order is removed from
the store before the settlement call is issued (the book recorded at the
call already lacks it, given the book held it once), and on settlement
success the response is `settled` with the durable transaction reference
and neither the incoming order nor the matched resting order is in the
book afterward. -/
theorem intake_settleSuccess_removes
    (d : String → String) (g : Order → String) (t : Int) (u : String)
    (k : Int) (p : Rat) (b : Bool) (q : Int) (n : Option String)
    (B : List SignedOrder) (m : SignedOrder) (tx : String)
    (hu : u ≠ "") (hp : p ≠ 0) (hq : q ≠ 0)
    (hm : findMatch (builtSigned d g t u k p b q n) B = some m)
    (hcount : B.count m ≤ 1)
    (hfresh : builtSigned d g t u k p b q n ∉ B) :
    (intake d g t (some tx) ⟨some u, some k, some p, some b, some q, n⟩ B).response =
      Response.settled tx (d u) "Order matched and settled on-chain" ∧
    (intake d g t (some tx) ⟨some u, some k, some p, some b, some q, n⟩ B).settleCall =
      some ⟨(intake d g t (some tx) ⟨some u, some k, some p, some b, some q, n⟩ B).book,
            if b then builtSigned d g t u k p b q n else m,
            if b then m else builtSigned d g t u k p b q n⟩ ∧
    m ∉ (intake d g t (some tx) ⟨some u, some k, some p, some b, some q, n⟩ B).book ∧
    builtSigned d g t u k p b q n ∉
      (intake d g t (some tx) ⟨some u, some k, some p, some b, some q, n⟩ B).book := by
  have hval : ¬(u = "" ∨ p = 0 ∨ q = 0) := by
    push_neg
    exact ⟨hu, hp, hq⟩
  have hperm := removeFirst_perm
    (fun c => orderMatches (builtSigned d g t u k p b q n).order c.order) B m hm
  simp only [intake, if_neg hval, hm]
  set s := builtSigned d g t u k p b q n with hsdef
  set rf := removeFirst (fun c => orderMatches s.order c.order) B with hrf
  have hmne : m ∉ rf := by
    have hcnt := hperm.count_eq m
    rw [List.count_cons_self] at hcnt
    have h0 : rf.count m = 0 := by omega
    exact List.count_eq_zero.mp h0
  have hsub := (removeFirst_sublist (fun c => orderMatches s.order c.order) B).subset
  exact ⟨trivial, trivial, hmne, fun hx => hfresh (hsub hx)⟩

/-- Evaluation rule for `usdToUsdc`: to pin its value at a concrete
price it suffices to bracket `p * 10^6 + 1/2` between `z` and `z + 1`
(the kernel cannot reduce `Rat` arithmetic, so concrete values are
established through `norm_num` instead of `decide`). -/
theorem usdToUsdc_eval (p : Rat) (z : Int) (h1 : (z : Rat) ≤ p * 1000000 + 1/2)
    (h2 : p * 1000000 + 1/2 < z + 1) : usdToUsdc p = z := by
  unfold usdToUsdc jsRound
  exact Int.floor_eq_iff.mpr ⟨h1, h2⟩

/-- `$100` is `100000000` fixed-point units. -/
theorem usdToUsdc_100 : usdToUsdc 100 = 100000000 :=
  usdToUsdc_eval 100 100000000 (by norm_num) (by norm_num)

/-- The incoming $100 buy built for user `bob` crosses the resting $100
ask, and it is the first (only) entry of the book. -/
theorem findMatch_bob :
    findMatch (builtSigned (fun _ => "0xW") (fun _ => "sg") 5 "bob" 7 100 true 1 none)
      [restingAsk] = some restingAsk := by
  simp only [findMatch, builtSigned, builtOrder, usdToUsdc_100]
  decide

/-- Witness for C2: Scenario-D-style run — a resting $100 ask, an
incoming crossing buy, settlement fails; the response is queued with the
pending message and the book is the old book plus the incoming order. -/
theorem intake_settleFail_requeues_witness :
    ("bob" ≠ "") ∧ ((100 : Rat) ≠ 0) ∧ ((1 : Int) ≠ 0) ∧
    findMatch (builtSigned (fun _ => "0xW") (fun _ => "sg") 5 "bob" 7 100 true 1 none)
      [restingAsk] = some restingAsk ∧
    ((intake (fun _ => "0xW") (fun _ => "sg") 5 none
        ⟨some "bob", some 7, some 100, some true, some 1, none⟩ [restingAsk]).response =
      Response.queued "0xW" "Match found but on-chain settlement pending" ∧
     (intake (fun _ => "0xW") (fun _ => "sg") 5 none
        ⟨some "bob", some 7, some 100, some true, some 1, none⟩ [restingAsk]).book.Perm
      (builtSigned (fun _ => "0xW") (fun _ => "sg") 5 "bob" 7 100 true 1 none :: [restingAsk])) :=
  ⟨by decide, by norm_num, by decide, findMatch_bob,
   intake_settleFail_requeues (fun _ => "0xW") (fun _ => "sg") 5 "bob" 7 100 true 1 none
     [restingAsk] restingAsk (by decide) (by norm_num) (by decide) findMatch_bob⟩

/-- Witness for C3: Scenario A — a resting sell for `assetId = 7`,
quantity 1 at $100, then a buy for the same at $100, settlement succeeds:
status `settled` and the book is empty afterward. -/
theorem intake_settleSuccess_removes_witness :
    ("bob" ≠ "") ∧ ((100 : Rat) ≠ 0) ∧ ((1 : Int) ≠ 0) ∧
    findMatch (builtSigned (fun _ => "0xW") (fun _ => "sg") 5 "bob" 7 100 true 1 none)
      [restingAsk] = some restingAsk ∧
    [restingAsk].count restingAsk ≤ 1 ∧
    builtSigned (fun _ => "0xW") (fun _ => "sg") 5 "bob" 7 100 true 1 none ∉ [restingAsk] ∧
    ((intake (fun _ => "0xW") (fun _ => "sg") 5 (some "0xTX")
        ⟨some "bob", some 7, some 100, some true, some 1, none⟩ [restingAsk]).response =
      Response.settled "0xTX" "0xW" "Order matched and settled on-chain" ∧
     restingAsk ∉ (intake (fun _ => "0xW") (fun _ => "sg") 5 (some "0xTX")
        ⟨some "bob", some 7, some 100, some true, some 1, none⟩ [restingAsk]).book) ∧
    (intake (fun _ => "0xW") (fun _ => "sg") 5 (some "0xTX")
        ⟨some "bob", some 7, some 100, some true, some 1, none⟩ [restingAsk]).book = [] :=
  ⟨by decide, by norm_num, by decide, findMatch_bob, by decide,
   by
     simp only [builtSigned, builtOrder, usdToUsdc_100]
     decide,
   (fun h => ⟨h.1, h.2.2.1⟩)
     (intake_settleSuccess_removes (fun _ => "0xW") (fun _ => "sg") 5 "bob" 7 100 true 1 none
       [restingAsk] restingAsk "0xTX" (by decide) (by norm_num) (by decide) findMatch_bob
       (by decide)
       (by
         simp only [builtSigned, builtOrder, usdToUsdc_100]
         decide)),
   by
     simp only [intake, findMatch, builtSigned, builtOrder, usdToUsdc_100]
     decide⟩

/-- Rejection of a request that fails the handler's truthiness guard:
any missing field, an empty `userId`, `priceUsd = 0` or `quantity = 0`
produces the 400 error before any order is constructed, signed, matched
or stored, leaving the book unchanged (C4, amended: negative values are
*not* caught by this guard). -/
theorem intake_rejects_falsy
    (d : String → String) (g : Order → String) (t : Int)
    (res : Option String) (r : Req) (B : List SignedOrder)
    (h : (r.userId = none ∨ r.userId = some "") ∨ r.tokenId = none ∨
         (r.priceUsd = none ∨ r.priceUsd = some 0) ∨ r.isBuy = none ∨
         (r.quantity = none ∨ r.quantity = some 0)) :
    intake d g t res r B =
      ⟨Response.error "Missing required fields" 400, B, none⟩ := by
  obtain ⟨u, k, p, b, q, n⟩ := r
  rcases u with _ | u' <;> rcases k with _ | k' <;> rcases p with _ | p' <;>
    rcases b with _ | b' <;> rcases q with _ | q' <;>
    simp_all [intake]

/-- Witness for the amended C4: a request with `quantity = 0` is
rejected and the book is untouched. -/
theorem intake_rejects_falsy_witness :
    (((⟨some "alice", some 7, some 100, some true, some 0, none⟩ : Req).userId = none ∨
       (⟨some "alice", some 7, some 100, some true, some 0, none⟩ : Req).userId = some "") ∨
      (⟨some "alice", some 7, some 100, some true, some 0, none⟩ : Req).tokenId = none ∨
      ((⟨some "alice", some 7, some 100, some true, some 0, none⟩ : Req).priceUsd = none ∨
       (⟨some "alice", some 7, some 100, some true, some 0, none⟩ : Req).priceUsd = some 0) ∨
      (⟨some "alice", some 7, some 100, some true, some 0, none⟩ : Req).isBuy = none ∨
      ((⟨some "alice", some 7, some 100, some true, some 0, none⟩ : Req).quantity = none ∨
       (⟨some "alice", some 7, some 100, some true, some 0, none⟩ : Req).quantity = some 0)) ∧
    intake (fun x => x) (fun _ => "sg") 0 none
        ⟨some "alice", some 7, some 100, some true, some 0, none⟩ [restingAsk] =
      ⟨Response.error "Missing required fields" 400, [restingAsk], none⟩ :=
  ⟨by decide,
   intake_rejects_falsy (fun x => x) (fun _ => "sg") 0 none
     ⟨some "alice", some 7, some 100, some true, some 0, none⟩ [restingAsk] (by decide)⟩

/-- Counterexample to C4 as stated: a request with `displayPrice = -5`
(strictly negative, hence `displayPrice ≤ 0`) is *not* rejected — the
handler's truthiness check `!priceUsd` only catches `0`; the order is
built and added to the book. -/
theorem intake_negative_price_not_rejected :
    (intake (fun x => x) (fun _ => "sg") 0 none
        ⟨some "alice", some 7, some (-5), some true, some 1, none⟩ []).response =
      Response.queued "alice" "Order submitted to order book" ∧
    (intake (fun x => x) (fun _ => "sg") 0 none
        ⟨some "alice", some 7, some (-5), some true, some 1, none⟩ []).book ≠ [] := by
  constructor
  · decide
  · decide

/-- C6: a `displayPrice` representable at 6-decimal precision survives
the round-trip `usdToUsdc` then `usdcToUsd` unchanged. -/
theorem usd_price_roundtrip (k : Int) (p : Rat) (h : p = (k : Rat) / 1000000) :
    usdcToUsd (usdToUsdc p) = p := by
  subst h
  unfold usdToUsdc jsRound usdcToUsd
  have h1 : (k : Rat) / 1000000 * 1000000 = (k : Rat) := by
    field_simp
  rw [h1]
  have h2 : ⌊(k : Rat) + 1/2⌋ = k := by
    rw [add_comm, Int.floor_add_int]
    norm_num
  rw [h2]

/-- Witness for C6: $1,250.50 → 1250500000 units → $1,250.50. -/
theorem usd_price_roundtrip_witness :
    ((2501/2 : Rat) = ((1250500000 : Int) : Rat) / 1000000) ∧
    usdToUsdc (2501/2) = 1250500000 ∧
    usdcToUsd (usdToUsdc (2501/2)) = (2501/2 : Rat) :=
  ⟨by norm_num, usdToUsdc_eval (2501/2) 1250500000 (by norm_num) (by norm_num),
   usd_price_roundtrip 1250500000 (2501/2) (by norm_num)⟩

/-- C7 (code evaluated at the failing input): two distinct orders built
within the same millisecond — `Date.now()` returns the same value for
both — receive the *same* nonce, contradicting strict increase and
uniqueness (and the route's own `// unique per order` comment). -/
theorem builtOrder_nonce_collision :
    (builtOrder "0xA" 7 100 true 1 1700000000000).nonce =
      (builtOrder "0xB" 9 55 false 3 1700000000000).nonce ∧
    builtOrder "0xA" 7 100 true 1 1700000000000 ≠
      builtOrder "0xB" 9 55 false 3 1700000000000 := by
  constructor
  · decide
  · decide

/-- C8 counterexample: `usdToUsdc` is not the ceiling.  At
`displayPrice = 100.0000004` the code yields `100000000`
(`Math.round` of `100000000.4`) while the ceiling is `100000001`. -/
theorem usdToUsdc_not_ceil :
    (0 : Rat) < 1000000004/10000000 ∧
    usdToUsdc (1000000004/10000000) = 100000000 ∧
    ⌈(1000000004/10000000 : Rat) * 1000000⌉ = 100000001 ∧
    usdToUsdc (1000000004/10000000) ≠ ⌈(1000000004/10000000 : Rat) * 1000000⌉ := by
  have h1 : usdToUsdc (1000000004/10000000) = 100000000 :=
    usdToUsdc_eval (1000000004/10000000) 100000000 (by norm_num) (by norm_num)
  have h2 : ⌈(1000000004/10000000 : Rat) * 1000000⌉ = 100000001 :=
    Int.ceil_eq_iff.mpr ⟨by norm_num, by norm_num⟩
  refine ⟨by norm_num, h1, h2, by rw [h1, h2]; decide⟩

/-- C8 amended: the fixed-point price is `displayPrice · 10^6` rounded to
the *nearest* integer with halves up (`Math.round`), not the ceiling —
it always lies within half a unit of the exact product — and the original
`displayPrice` is stored unchanged on the signed order for audit. -/
theorem usdToUsdc_nearest_half_up :
    (∀ p : Rat,
      p * 1000000 - 1/2 < ((usdToUsdc p : Int) : Rat) ∧
      ((usdToUsdc p : Int) : Rat) ≤ p * 1000000 + 1/2) ∧
    (∀ (d : String → String) (g : Order → String) (t : Int) (u : String)
       (k : Int) (pr : Rat) (b : Bool) (q : Int) (n : Option String),
      (builtSigned d g t u k pr b q n).priceUsd = pr) := by
  constructor
  · intro p
    unfold usdToUsdc jsRound
    constructor
    · have hf := Int.sub_one_lt_floor (p * 1000000 + 1/2)
      push_cast at hf ⊢
      linarith
    · have hf := Int.floor_le (p * 1000000 + 1/2)
      push_cast at hf ⊢
      linarith
  · intro d g t u k pr b q n
    rfl

/-- C9: identity derivation is deterministic and pure — equal
`(masterSecret, userId)` inputs give the identical key, and the key is
the keyed hash of the master secret bytes concatenated with the UTF-8
bytes of the user id.  In this embedding `deriveUserKey` is a total
function with no state, so it has no error condition and no side
effect. -/
theorem deriveUserKey_deterministic (hash : List Nat → List Nat)
    (u v : String) (he : u = v) :
    deriveUserKey hash u = deriveUserKey hash v ∧
    deriveUserKey hash u =
      hash (masterKeyBytes ++ (u.toUTF8.toList.map fun c => c.toNat)) := by
  subst he
  exact ⟨rfl, rfl⟩

/-- Witness for C9 at a concrete hash function and user id. -/
theorem deriveUserKey_deterministic_witness :
    ("alice" : String) = "alice" ∧
    (deriveUserKey (fun l => l) "alice" = deriveUserKey (fun l => l) "alice" ∧
     deriveUserKey (fun l => l) "alice" =
       (fun l : List Nat => l)
         (masterKeyBytes ++ ("alice".toUTF8.toList.map fun c => c.toNat))) :=
  ⟨rfl, deriveUserKey_deterministic (fun l => l) "alice" "alice" rfl⟩

/-- A resting sell owned by user `alice` with maker address `0xSame`. -/
def selfAsk : SignedOrder :=
  ⟨⟨"0xSame", 7, 100000000, false, 1, 0, 0⟩, "s0", 0, "alice", "Card #7", 100⟩

/-- An incoming buy from the *same* user and maker as `selfAsk`. -/
def selfBid : SignedOrder :=
  ⟨⟨"0xSame", 7, 100000000, true, 1, 1, 1⟩, "s1", 1, "alice", "Card #7", 100⟩

/-- C10: the matching predicate ignores maker and submitter — an
incoming order matches a resting order created by the same maker and the
same `userId`, and a full intake settles a user's order against the same
user's own resting order. -/
theorem self_trade_permitted :
    findMatch selfBid [selfAsk] = some selfAsk ∧
    selfAsk.order.maker = selfBid.order.maker ∧
    selfAsk.userId = selfBid.userId ∧
    (intake (fun _ => "0xSame") (fun _ => "sg") 1 (some "0xTX")
        ⟨some "alice", some 7, some 100, some true, some 1, some "Card #7"⟩
        [selfAsk]).response =
      Response.settled "0xTX" "0xSame" "Order matched and settled on-chain" := by
  refine ⟨by decide, rfl, rfl, ?_⟩
  simp only [intake, findMatch, builtSigned, builtOrder, usdToUsdc_100]
  decide

/-! ### Concurrency model: two concurrent intakes

The `POST` handler touches the shared `orderBook` in two synchronous
segments separated by the `await settleMatch(...)` suspension point:

* the *claim* segment (lines 167–172 and, on the no-match path, 199):
  `findMatch`, removal of the matched entry, or push of the incoming
  order.  It contains no `await`, so under the JavaScript event loop's
  run-to-completion execution it runs atomically;
* the *finish* segment (lines 177–195), the continuation after the
  settlement `await`: on failure it pushes back the matched entry and
  the incoming order, on success it does not touch the book.

Two concurrent requests A and B therefore interleave at the granularity
of these segments.  A handler *holds* a resting order between its claim
and its finish — that is the window in which the order is handed to a
settlement attempt. -/

/-- Book-touching atomic segments of two concurrent handlers. -/
inductive Act where
  | claimA
  | finishA
  | claimB
  | finishB
deriving DecidableEq, Repr

/-- Interleaved state: the shared book and, per handler, whether its
claim segment has run, which resting order it claimed, and whether it
has finished. -/
structure CState where
  book : List SignedOrder
  startedA : Bool
  claimedA : Option SignedOrder
  doneA : Bool
  startedB : Bool
  claimedB : Option SignedOrder
  doneB : Bool
deriving DecidableEq, Repr

/-- One atomic segment of the handler pair: `sA`/`sB` are the two
incoming signed orders, `okA`/`okB` the outcomes their settlement calls
would have.  Each segment runs at most once (`started`/`done` guards);
a `finish` before its `claim` is a no-op. -/
def step (sA sB : SignedOrder) (okA okB : Bool) (σ : CState) : Act → CState
  | .claimA =>
    if σ.startedA then σ
    else
      match findMatch sA σ.book with
      | some m =>
        { σ with book := removeFirst (fun c => orderMatches sA.order c.order) σ.book,
                 startedA := true, claimedA := some m, doneA := false }
      | none =>
        { σ with book := σ.book ++ [sA],
                 startedA := true, claimedA := none, doneA := true }
  | .finishA =>
    match σ.claimedA with
    | some m =>
      if σ.doneA then σ
      else { σ with doneA := true,
                    book := if okA then σ.book else σ.book ++ [m, sA] }
    | none => σ
  | .claimB =>
    if σ.startedB then σ
    else
      match findMatch sB σ.book with
      | some m =>
        { σ with book := removeFirst (fun c => orderMatches sB.order c.order) σ.book,
                 startedB := true, claimedB := some m, doneB := false }
      | none =>
        { σ with book := σ.book ++ [sB],
                 startedB := true, claimedB := none, doneB := true }
  | .finishB =>
    match σ.claimedB with
    | some m =>
      if σ.doneB then σ
      else { σ with doneB := true,
                    book := if okB then σ.book else σ.book ++ [m, sB] }
    | none => σ

/-- Initial state: the resting book, neither handler has run. -/
def initState (book0 : List SignedOrder) : CState :=
  ⟨book0, false, none, false, false, none, false⟩

/-- Execute an arbitrary interleaving of the two handlers' segments. -/
def run (sA sB : SignedOrder) (okA okB : Bool) (book0 : List SignedOrder)
    (acts : List Act) : CState :=
  acts.foldl (step sA sB okA okB) (initState book0)

/-- Handler A currently holds `x`: it claimed `x` and has not finished —
`x` is inside A's settlement attempt. -/
def holdsA (σ : CState) (x : SignedOrder) : Prop :=
  σ.claimedA = some x ∧ σ.doneA = false

/-- Handler B currently holds `x`. -/
def holdsB (σ : CState) (x : SignedOrder) : Prop :=
  σ.claimedB = some x ∧ σ.doneB = false

/-- The multiset of orders handler A currently holds (empty or one). -/
def heldA (σ : CState) : Multiset SignedOrder :=
  match σ.claimedA with
  | some m => if σ.doneA then 0 else {m}
  | none => 0

/-- The multiset of orders handler B currently holds. -/
def heldB (σ : CState) : Multiset SignedOrder :=
  match σ.claimedB with
  | some m => if σ.doneB then 0 else {m}
  | none => 0

/-- Allowance for A's incoming order: `{sA}` once A may have pushed `sA`
into the book (its intake ended queued, or its settlement finished). -/
def inFlowA (sA : SignedOrder) (σ : CState) : Multiset SignedOrder :=
  if σ.startedA ∧ (σ.claimedA = none ∨ σ.doneA) then {sA} else 0

/-- Allowance for B's incoming order. -/
def inFlowB (sB : SignedOrder) (σ : CState) : Multiset SignedOrder :=
  if σ.startedB ∧ (σ.claimedB = none ∨ σ.doneB) then {sB} else 0

/-- Inductive invariant of the interleaved system: handlers are
well-formed (claimed or done only after started), and every order in the
book or held by a handler is accounted for by the initial book plus at
most one copy of each incoming order. -/
def Inv (book0 : List SignedOrder) (sA sB : SignedOrder) (σ : CState) : Prop :=
  (σ.startedA = false → σ.claimedA = none ∧ σ.doneA = false) ∧
  (σ.startedB = false → σ.claimedB = none ∧ σ.doneB = false) ∧
  (σ.book : Multiset SignedOrder) + heldA σ + heldB σ ≤
    (book0 : Multiset SignedOrder) + inFlowA sA σ + inFlowB sB σ

/-- Turning the permutation produced by a successful claim into a
multiset equation: the removed book plus the claimed order is the old
book. -/
theorem claim_multiset_eq (s : SignedOrder) (book : List SignedOrder)
    (m : SignedOrder) (h : findMatch s book = some m) :
    ((removeFirst (fun c => orderMatches s.order c.order) book : Multiset SignedOrder)
      + {m}) = (book : Multiset SignedOrder) := by
  have hperm := removeFirst_perm (fun c => orderMatches s.order c.order) book m h
  rw [add_comm, Multiset.singleton_add, Multiset.cons_coe]
  exact (Multiset.coe_eq_coe.mpr hperm).symm

/-- Every atomic segment preserves the invariant. -/
theorem Inv_step (book0 : List SignedOrder) (sA sB : SignedOrder)
    (okA okB : Bool) (σ : CState) (a : Act) (h : Inv book0 sA sB σ) :
    Inv book0 sA sB (step sA sB okA okB σ a) := by
  obtain ⟨hwA, hwB, hb⟩ := h
  cases a with
  | claimA =>
    by_cases hs : σ.startedA = true
    · simp only [step, hs, if_true]
      exact ⟨hwA, hwB, hb⟩
    · have hs' : σ.startedA = false := by simpa using hs
      obtain ⟨hcA, hdA⟩ := hwA hs'
      have hina : inFlowA sA σ = 0 := by simp [inFlowA, hs']
      have hha : heldA σ = 0 := by simp [heldA, hcA]
      rw [hina, hha, add_zero, add_zero] at hb
      cases hfm : findMatch sA σ.book with
      | some m =>
        simp only [step, hs', Bool.false_eq_true, if_false, hfm]
        refine ⟨by simp, hwB, ?_⟩
        show (removeFirst (fun c => orderMatches sA.order c.order) σ.book :
            Multiset SignedOrder) + {m} + heldB σ ≤
          (book0 : Multiset SignedOrder) + 0 + inFlowB sB σ
        rw [claim_multiset_eq sA σ.book m hfm, add_zero]
        exact hb
      | none =>
        simp only [step, hs', Bool.false_eq_true, if_false, hfm]
        refine ⟨by simp, hwB, ?_⟩
        show (σ.book : Multiset SignedOrder) + {sA} + 0 + heldB σ ≤
          (book0 : Multiset SignedOrder) + {sA} + inFlowB sB σ
        rw [add_zero]
        have hb2 := add_le_add_right hb ({sA} : Multiset SignedOrder)
        exact le_trans (le_of_eq (by abel)) (le_trans hb2 (le_of_eq (by abel)))
  | finishA =>
    cases hc : σ.claimedA with
    | none =>
      simp only [step, hc]
      exact ⟨hwA, hwB, hb⟩
    | some m =>
      have hsA : σ.startedA = true := by
        by_contra hcon
        have := (hwA (by simpa using hcon)).1
        rw [hc] at this
        exact Option.noConfusion this
      by_cases hd : σ.doneA = true
      · simp only [step, hc, hd, if_true]
        exact ⟨hwA, hwB, hb⟩
      · have hd' : σ.doneA = false := by simpa using hd
        have hha : heldA σ = {m} := by simp [heldA, hc, hd']
        have hina : inFlowA sA σ = 0 := by simp [inFlowA, hc, hd']
        rw [hha, hina, add_zero] at hb
        simp only [step, hc, hd', hsA, Bool.false_eq_true, if_false]
        refine ⟨by simp, hwB, ?_⟩
        cases okA with
        | true =>
          show (σ.book : Multiset SignedOrder) + 0 + heldB σ ≤
            (book0 : Multiset SignedOrder) + {sA} + inFlowB sB σ
          rw [add_zero]
          have h1 : (σ.book : Multiset SignedOrder) + heldB σ ≤
              (σ.book : Multiset SignedOrder) + {m} + heldB σ :=
            add_le_add_right (Multiset.le_add_right _ _) _
          have h2 : (book0 : Multiset SignedOrder) + inFlowB sB σ ≤
              (book0 : Multiset SignedOrder) + {sA} + inFlowB sB σ :=
            add_le_add_right (Multiset.le_add_right _ _) _
          exact le_trans h1 (le_trans hb h2)
        | false =>
          show (σ.book : Multiset SignedOrder) + ({m} + {sA}) + 0 + heldB σ ≤
            (book0 : Multiset SignedOrder) + {sA} + inFlowB sB σ
          rw [add_zero]
          have hb2 := add_le_add_right hb ({sA} : Multiset SignedOrder)
          exact le_trans (le_of_eq (by abel)) (le_trans hb2 (le_of_eq (by abel)))
  | claimB =>
    by_cases hs : σ.startedB = true
    · simp only [step, hs, if_true]
      exact ⟨hwA, hwB, hb⟩
    · have hs' : σ.startedB = false := by simpa using hs
      obtain ⟨hcB, hdB⟩ := hwB hs'
      have hinb : inFlowB sB σ = 0 := by simp [inFlowB, hs']
      have hhb : heldB σ = 0 := by simp [heldB, hcB]
      rw [hinb, hhb, add_zero, add_zero] at hb
      cases hfm : findMatch sB σ.book with
      | some m =>
        simp only [step, hs', Bool.false_eq_true, if_false, hfm]
        refine ⟨hwA, by simp, ?_⟩
        show (removeFirst (fun c => orderMatches sB.order c.order) σ.book :
            Multiset SignedOrder) + heldA σ + {m} ≤
          (book0 : Multiset SignedOrder) + inFlowA sA σ + 0
        rw [add_zero]
        calc (removeFirst (fun c => orderMatches sB.order c.order) σ.book :
                Multiset SignedOrder) + heldA σ + {m}
            = (removeFirst (fun c => orderMatches sB.order c.order) σ.book :
                Multiset SignedOrder) + {m} + heldA σ := by abel
          _ = (σ.book : Multiset SignedOrder) + heldA σ := by
              rw [claim_multiset_eq sB σ.book m hfm]
          _ ≤ (book0 : Multiset SignedOrder) + inFlowA sA σ := hb
      | none =>
        simp only [step, hs', Bool.false_eq_true, if_false, hfm]
        refine ⟨hwA, by simp, ?_⟩
        show (σ.book : Multiset SignedOrder) + {sB} + heldA σ + 0 ≤
          (book0 : Multiset SignedOrder) + inFlowA sA σ + {sB}
        rw [add_zero]
        have hb2 := add_le_add_right hb ({sB} : Multiset SignedOrder)
        exact le_trans (le_of_eq (by abel)) hb2
  | finishB =>
    cases hc : σ.claimedB with
    | none =>
      simp only [step, hc]
      exact ⟨hwA, hwB, hb⟩
    | some m =>
      have hsB : σ.startedB = true := by
        by_contra hcon
        have := (hwB (by simpa using hcon)).1
        rw [hc] at this
        exact Option.noConfusion this
      by_cases hd : σ.doneB = true
      · simp only [step, hc, hd, if_true]
        exact ⟨hwA, hwB, hb⟩
      · have hd' : σ.doneB = false := by simpa using hd
        have hhb : heldB σ = {m} := by simp [heldB, hc, hd']
        have hinb : inFlowB sB σ = 0 := by simp [inFlowB, hc, hd']
        rw [hhb, hinb, add_zero] at hb
        simp only [step, hc, hd', hsB, Bool.false_eq_true, if_false]
        refine ⟨hwA, by simp, ?_⟩
        cases okB with
        | true =>
          show (σ.book : Multiset SignedOrder) + heldA σ + 0 ≤
            (book0 : Multiset SignedOrder) + inFlowA sA σ + {sB}
          rw [add_zero]
          have h1 : (σ.book : Multiset SignedOrder) + heldA σ ≤
              (σ.book : Multiset SignedOrder) + heldA σ + {m} :=
            Multiset.le_add_right _ _
          exact le_trans h1 (le_trans hb (Multiset.le_add_right _ _))
        | false =>
          show (σ.book : Multiset SignedOrder) + ({m} + {sB}) + heldA σ + 0 ≤
            (book0 : Multiset SignedOrder) + inFlowA sA σ + {sB}
          rw [add_zero]
          have hb2 := add_le_add_right hb ({sB} : Multiset SignedOrder)
          exact le_trans (le_of_eq (by abel)) hb2

/-- The invariant holds initially. -/
theorem Inv_init (book0 : List SignedOrder) (sA sB : SignedOrder) :
    Inv book0 sA sB (initState book0) := by
  refine ⟨fun _ => ⟨rfl, rfl⟩, fun _ => ⟨rfl, rfl⟩, ?_⟩
  simp [initState, heldA, heldB, inFlowA, inFlowB]

/-- The invariant holds after any interleaving of the two handlers. -/
theorem run_Inv (book0 : List SignedOrder) (sA sB : SignedOrder)
    (okA okB : Bool) (acts : List Act) :
    Inv book0 sA sB (run sA sB okA okB book0 acts) := by
  suffices h : ∀ σ, Inv book0 sA sB σ →
      Inv book0 sA sB (acts.foldl (step sA sB okA okB) σ) from
    h _ (Inv_init book0 sA sB)
  induction acts with
  | nil => exact fun σ hσ => hσ
  | cons a rest ih =>
    exact fun σ hσ => ih _ (Inv_step book0 sA sB okA okB σ a hσ)

/-- C5: for any interleaving of two concurrent intakes at the `await`
boundaries of the handler (the `findMatch`-and-remove block is a single
synchronous segment and hence atomic), a resting order present once in
the initial book is never held by both handlers' settlement attempts at
the same time: at most one concurrent intake claims any given resting
order. -/
theorem no_double_claim (book0 : List SignedOrder) (sA sB : SignedOrder)
    (okA okB : Bool) (acts : List Act) (x : SignedOrder)
    (hx : book0.count x ≤ 1) (hxA : x ≠ sA) (hxB : x ≠ sB) :
    ¬(holdsA (run sA sB okA okB book0 acts) x ∧
      holdsB (run sA sB okA okB book0 acts) x) := by
  rintro ⟨⟨hca, hda⟩, hcb, hdb⟩
  obtain ⟨-, -, hbound⟩ := run_Inv book0 sA sB okA okB acts
  set σ := run sA sB okA okB book0 acts
  have hcnt := Multiset.le_iff_count.mp hbound x
  rw [Multiset.count_add, Multiset.count_add, Multiset.count_add,
    Multiset.count_add] at hcnt
  have h1 : (heldA σ).count x = 1 := by
    simp [heldA, hca, hda]
  have h2 : (heldB σ).count x = 1 := by
    simp [heldB, hcb, hdb]
  have h3 : (inFlowA sA σ).count x = 0 := by
    by_cases hifa : σ.startedA = true ∧ (σ.claimedA = none ∨ σ.doneA = true)
    · simp [inFlowA, hifa, Multiset.count_singleton, hxA]
    · simp [inFlowA, hifa]
  have h4 : (inFlowB sB σ).count x = 0 := by
    by_cases hifb : σ.startedB = true ∧ (σ.claimedB = none ∨ σ.doneB = true)
    · simp [inFlowB, hifb, Multiset.count_singleton, hxB]
    · simp [inFlowB, hifb]
  have h5 : Multiset.count x (book0 : Multiset SignedOrder) ≤ 1 := by
    rw [Multiset.coe_count]
    exact hx
  rw [h1, h2, h3, h4] at hcnt
  omega

/-- Witness for C5: resting ask claimed under the interleaving
claim-A, claim-B, finish-A, finish-B — the two crossing buys never hold
the ask simultaneously. -/
theorem no_double_claim_witness :
    [restingAsk].count restingAsk ≤ 1 ∧ restingAsk ≠ buyAtAsk ∧
    restingAsk ≠ selfBid ∧
    ¬(holdsA (run buyAtAsk selfBid true true [restingAsk]
        [Act.claimA, Act.claimB, Act.finishA, Act.finishB]) restingAsk ∧
      holdsB (run buyAtAsk selfBid true true [restingAsk]
        [Act.claimA, Act.claimB, Act.finishA, Act.finishB]) restingAsk) :=
  ⟨by decide, by decide, by decide,
   no_double_claim [restingAsk] buyAtAsk selfBid true true
     [Act.claimA, Act.claimB, Act.finishA, Act.finishB] restingAsk
     (by decide) (by decide) (by decide)⟩

end Ledger
